import Mathlib

set_option linter.unusedVariables false

/- Verification development for the Mordred scheduling engine
   (mordred/mordred.py).  The engine partitions task classes into
   backend-scoped and global tasks, seeds two shared registry queues,
   spawns one lane (TasksManager thread) per backend plus one global
   lane, arms a stop signal in batch mode, joins the lanes, surfaces
   the first error from the shared error channel and drains the
   registry queues.  Python dicts are modelled as insertion-ordered
   association lists, the process-wide queues as lists (put appends,
   get takes the head), and the effect of the concurrently running
   lanes on the shared queues as an arbitrary function applied at the
   join point. -/

namespace Mordred

/-- A task class.  `is_backend_task` models the class-level predicate
`t.is_backend_task(t)` used by `_split_tasks`. -/
structure Task where
  name : String
  is_backend_task : Bool
deriving DecidableEq, Repr

/-- One entry of `TasksManager.COMM_QUEUE`: the `(exc_type, exc_obj,
exc_trace)` triple pushed by a failing lane. -/
structure PyError where
  kind : String
  message : String
  stack : String
deriving DecidableEq, Repr

/-- One `TasksManager` thread as constructed in `execute_batch_tasks`:
`TasksManager(tasks, label, stopper, config, delay)` (the stopper and
config arguments are shared and carry no per-lane data). -/
structure Lane where
  tasks : List Task
  label : String
  delay : Nat
deriving DecidableEq, Repr

/-- Observable steps of `execute_batch_tasks`, in program order. -/
inductive Event where
  | debugLog (msg : String)
  | infoLog (msg : String)
  | warnLog (msg : String)
  | errorLog (msg : String)
  | putAutorefresh (d : List (String × Bool))
  | putUpdatedUuids (d : List (String × List String))
  | spawnLane (l : Lane)
  | sleep (secs : Nat)
  | setStopper
  | joinLane (label : String)
deriving DecidableEq, Repr

/-- The three process-wide queues of `TasksManager`:
`AUTOREFRESH_QUEUE`, `UPDATED_UUIDS_QUEUE` and `COMM_QUEUE`.
A `put` appends, a `get` takes the head. -/
structure QState where
  autorefresh : List (List (String × Bool))
  updatedUuids : List (List (String × List String))
  comm : List PyError
deriving DecidableEq, Repr

/-- Everything `execute_batch_tasks` reads from the surrounding
process: the configured backend sections (`Config.get_backend_sections`),
the section-to-backend-name map (`Task.get_backend`), the loaded
projects (`TaskProjects.get_projects`) and the set of section keys
present in the mordred configuration (`self.conf`). -/
structure Engine where
  backend_sections : List String
  get_backend : String → String
  projects : List (String × List (String × List String))
  conf : List String

/-- Python dict lookup on an association list. -/
def lookupA {α : Type} (m : List (String × α)) (k : String) : Option α :=
  (m.find? (fun p => p.1 = k)).map Prod.snd

/-- The body of the accumulation in `_get_repos_by_backend`: if the
key is absent it is inserted at the end (dict insertion order),
otherwise its repository list is extended (`output[k] += repos`). -/
def addRepos (output : List (String × List String)) (k : String)
    (repos : List String) : List (String × List String) :=
  match lookupA output k with
  | none => output ++ [(k, repos)]
  | some _ => output.map (fun p => if p.1 = k then (p.1, p.2 ++ repos) else p)

/-- The `output` dict of `Mordred._get_repos_by_backend`: for every
backend section and every project, if the section backend occurs in
the project, accumulate its repositories. -/
def reposOutput (e : Engine) : List (String × List String) :=
  e.backend_sections.foldl (fun output bs =>
    e.projects.foldl (fun output pro =>
      match lookupA pro.2 (e.get_backend bs) with
      | some repos => addRepos output bs repos
      | none => output) output) []

/-- `Mordred._get_repos_by_backend`: the accumulated dict restricted
to the keys present in the mordred configuration
(`enabled = \x7bk: output[k] for k in output if k in self.conf\x7d`). -/
def get_repos_by_backend (e : Engine) : List (String × List String) :=
  (reposOutput e).filter (fun p => decide (p.1 ∈ e.conf))

/-- `_split_tasks` inside `execute_batch_tasks`: partition the task
classes by `is_backend_task`, preserving order, by appending to two
accumulators exactly as the Python loop does. -/
def split_tasks (tasks_cls : List Task) : List Task × List Task :=
  tasks_cls.foldl
    (fun acc t =>
      if t.is_backend_task then (acc.1 ++ [t], acc.2) else (acc.1, acc.2 ++ [t]))
    ([], [])

/-- The dict `backends_autorefresh = \x7bbackend: False for backend in
repos_backend\x7d` put on `AUTOREFRESH_QUEUE`. -/
def seedAuto (e : Engine) : List (String × Bool) :=
  (get_repos_by_backend e).map (fun p => (p.1, false))

/-- The dict `backends_autorefresh_uuids = \x7bbackend: [] for backend in
repos_backend\x7d` put on `UPDATED_UUIDS_QUEUE`. -/
def seedUuids (e : Engine) : List (String × List String) :=
  (get_repos_by_backend e).map (fun p => (p.1, ([] : List String)))

/-- The backend lanes: one `TasksManager(backend_tasks, backend,
stopper, config, small_delay)` per backend of `repos_backend`, started
only when there is at least one backend task. -/
def backendLanes (e : Engine) (tasks_cls : List Task) (small_delay : Nat) :
    List Lane :=
  if 0 < (split_tasks tasks_cls).1.length then
    (get_repos_by_backend e).map
      (fun p => Lane.mk (split_tasks tasks_cls).1 p.1 small_delay)
  else []

/-- The global lane: `TasksManager(global_tasks, "Global tasks",
stopper, config, big_delay)`, started only when there is at least one
global task. -/
def globalLanes (tasks_cls : List Task) (big_delay : Nat) : List Lane :=
  if 0 < (split_tasks tasks_cls).2.length then
    [Lane.mk (split_tasks tasks_cls).2 "Global tasks" big_delay]
  else []

/-- All threads started by one `execute_batch_tasks` call, in start
order (backend lanes first, then the global lane). -/
def ebtLanes (e : Engine) (tasks_cls : List Task) (big_delay small_delay : Nat) :
    List Lane :=
  backendLanes e tasks_cls small_delay ++ globalLanes tasks_cls big_delay

/-- The shared-queue state after the seeding puts and before any lane
runs: when backend tasks exist, the two seed dicts are appended to the
registry queues. -/
def preJoinQ (e : Engine) (tasks_cls : List Task) (q0 : QState) : QState :=
  if 0 < (split_tasks tasks_cls).1.length then
    { q0 with
      autorefresh := q0.autorefresh ++ [seedAuto e],
      updatedUuids := q0.updatedUuids ++ [seedUuids e] }
  else q0

/-- The shared-queue state observed right after all lanes joined: the
lanes mutate the queues concurrently, which the model captures with
the arbitrary interference function `interf`; with no lane started the
queues are untouched. -/
def postJoinQ (e : Engine) (tasks_cls : List Task) (big_delay small_delay : Nat)
    (q0 : QState) (interf : QState → QState) : QState :=
  if (ebtLanes e tasks_cls big_delay small_delay).isEmpty then
    preJoinQ e tasks_cls q0
  else interf (preJoinQ e tasks_cls q0)

/-- Trace of the set-up phase of `execute_batch_tasks`: the initial
debug line, the two registry puts and the backend lane starts (only
when backend tasks exist), then the global lane start with its
deferred-execution info line (only when global tasks exist). -/
def spawnTrace (e : Engine) (tasks_cls : List Task) (big_delay small_delay : Nat) :
    List Event :=
  [Event.debugLog "Tasks Manager starting"]
  ++ (if 0 < (split_tasks tasks_cls).1.length then
        [Event.putAutorefresh (seedAuto e), Event.putUpdatedUuids (seedUuids e)]
        ++ (backendLanes e tasks_cls small_delay).map Event.spawnLane
      else [])
  ++ (if 0 < (split_tasks tasks_cls).2.length then
        [Event.spawnLane (Lane.mk (split_tasks tasks_cls).2 "Global tasks" big_delay)]
        ++ (if 0 < big_delay then [Event.infoLog "global tasks deferred"] else [])
      else [])

/-- Trace of the stop arming: `time.sleep(1); stopper.set()` exactly
when `wait_for_threads` is true. -/
def stopTrace (wait_for_threads : Bool) : List Event :=
  if wait_for_threads then [Event.sleep 1, Event.setStopper] else []

/-- Trace of the join loop: one join per started thread, in order. -/
def joinTrace (lanes : List Lane) : List Event :=
  lanes.map (fun l => Event.joinLane l.label)

/-- `Mordred.__check_queue_for_errors`: a non-blocking get on
`COMM_QUEUE`; on an empty queue, a debug line and no exception; else
the first entry is consumed, its kind logged as an error, and the
error object re-raised.  Returns (remaining queue, events, raised). -/
def check_queue_for_errors :
    List PyError → List PyError × List Event × Option PyError
  | [] => ([], [Event.debugLog "No exceptions in threads"], none)
  | exc :: rest => (rest, [Event.errorLog exc.kind], some exc)

/-- Trace of the queue-size checks before the drain: a warning per
registry queue whose size is not exactly one. -/
def drainTrace (q : QState) : List Event :=
  (if q.autorefresh.length ≠ 1 then
    [Event.warnLog "AUTOREFRESH QUEUE final size"] else [])
  ++ (if q.updatedUuids.length ≠ 1 then
    [Event.warnLog "UPDATED UUIDS QUEUE final size"] else [])

/-- The observable result of one `execute_batch_tasks` call.
`stopperInitial` is the state of the freshly created
`threading.Event()`; `stopperFinal` its state when the call ends;
`raised` the exception re-raised from the error channel, if any;
`qfinal` the final contents of the three process-wide queues. -/
structure BatchResult where
  trace : List Event
  lanes : List Lane
  raised : Option PyError
  qfinal : QState
  stopperInitial : Bool
  stopperFinal : Bool
deriving DecidableEq, Repr

/-- `Mordred.execute_batch_tasks(tasks_cls, big_delay, small_delay,
wait_for_threads)`: split the tasks, seed the registry queues and
start the backend lanes when backend tasks exist, start the global
lane when global tasks exist, arm the stopper after the one-second
grace period when `wait_for_threads`, join all lanes (the lanes
interfere with the shared queues), surface the first error of the
error channel (skipping the drain when one is re-raised), otherwise
warn about unexpected registry-queue sizes and drain both registry
queues to empty. -/
def execute_batch_tasks (e : Engine) (tasks_cls : List Task)
    (big_delay small_delay : Nat) (wait_for_threads : Bool)
    (q0 : QState) (interf : QState → QState) : BatchResult :=
  let lanes := ebtLanes e tasks_cls big_delay small_delay
  let q2 := postJoinQ e tasks_cls big_delay small_delay q0 interf
  let chk := check_queue_for_errors q2.comm
  let baseTrace := spawnTrace e tasks_cls big_delay small_delay
    ++ stopTrace wait_for_threads ++ joinTrace lanes ++ chk.2.1
  match chk.2.2 with
  | some exc =>
    { trace := baseTrace
      lanes := lanes
      raised := some exc
      qfinal := { autorefresh := q2.autorefresh, updatedUuids := q2.updatedUuids,
                  comm := chk.1 }
      stopperInitial := false
      stopperFinal := wait_for_threads }
  | none =>
    { trace := baseTrace ++ drainTrace q2
        ++ [Event.debugLog "Task manager and all its tasks finished"]
      lanes := lanes
      raised := none
      qfinal := { autorefresh := [], updatedUuids := [], comm := chk.1 }
      stopperInitial := false
      stopperFinal := wait_for_threads }

/-- What one iteration of the main loop of `Mordred.start` can observe
of a batch: normal completion, a recoverable `DataCollectionError` or
`DataEnrichmentError` raised out of the batch, or an exception of any
other kind. -/
inductive Outcome where
  | ok
  | collection (err : PyError)
  | enrichment (err : PyError)
  | fatal (err : PyError)
deriving DecidableEq, Repr

/-- The configuration values the main loop of `start` reads:
`general.update`, `sortinghat.sleep_for`, `general.min_update_delay`. -/
structure StartConf where
  update : Bool
  sleep_for : Nat
  min_update_delay : Nat
deriving DecidableEq, Repr

/-- Observable steps of the main loop of `Mordred.start`. -/
inductive SEvent where
  | warnNoTasks
  | callBatch (big_delay small_delay : Nat) (wait_for_threads : Bool)
  | logError (msg : String)
  | logTraceback
deriving DecidableEq, Repr

/-- How the main loop of `start` ends: `finished` through `break`,
`raised` when an exception propagates out, `scriptExhausted` when the
scripted batch outcomes run out while the loop would continue. -/
inductive LoopEnd where
  | finished
  | raised (err : PyError)
  | scriptExhausted
deriving DecidableEq, Repr

/-- The batch call emitted by one loop iteration: in single-pass mode
(`update` false) `execute_batch_tasks(all_tasks_cls, sleep_for,
min_update_delay)` with waiting enabled; otherwise
`execute_nonstop_tasks`, i.e. the same delays with waiting off. -/
def callEvent (c : StartConf) : SEvent :=
  SEvent.callBatch c.sleep_for c.min_update_delay (!c.update)

/-- The main loop of `Mordred.start`, with the outcome of each batch
call scripted by a list (one entry consumed per call): an empty task
list logs a warning and breaks; a recoverable collection or
enrichment error is logged with its traceback and the loop continues;
any other exception propagates; in single-pass mode a normal batch
 completion breaks the loop. -/
def startLoop (c : StartConf) (allTasks : List Task) :
    List Outcome → List SEvent × LoopEnd
  | [] =>
    if allTasks.isEmpty then ([SEvent.warnNoTasks], LoopEnd.finished)
    else ([], LoopEnd.scriptExhausted)
  | o :: rest =>
    if allTasks.isEmpty then ([SEvent.warnNoTasks], LoopEnd.finished)
    else
      match o with
      | Outcome.ok =>
        if c.update then
          let next := startLoop c allTasks rest
          (callEvent c :: next.1, next.2)
        else ([callEvent c], LoopEnd.finished)
      | Outcome.collection err =>
        let next := startLoop c allTasks rest
        (callEvent c :: SEvent.logError err.message :: SEvent.logTraceback :: next.1,
         next.2)
      | Outcome.enrichment err =>
        let next := startLoop c allTasks rest
        (callEvent c :: SEvent.logError err.message :: SEvent.logTraceback :: next.1,
         next.2)
      | Outcome.fatal err => ([callEvent c], LoopEnd.raised err)

/-- Python `str.rfind`: highest index of `c` in `s`, `-1` if absent. -/
def rfind : List Char → Char → Int
  | [], _ => -1
  | x :: xs, c =>
    let r := rfind xs c
    if 0 ≤ r then r + 1
    else if x = c then 0 else -1

/-- Python `pre, post = s.split(c)`: succeeds exactly when `c` occurs
once, yielding the parts before and after it; any other occurrence
count raises (modelled as `none`). -/
def pySplit2 (s : List Char) (c : Char) :
    Option (List Char × List Char) :=
  if s.count c = 1 then
    some (s.takeWhile (fun x => x ≠ c), (s.dropWhile (fun x => x ≠ c)).tail)
  else none

/-- `_ofuscate_server_uri` inside `Mordred.check_es_access`: when the
URI has an `@` past index 0, split on it, find the last `:` of the
prefix and splice `****@` in place of what follows that colon;
otherwise return the URI unchanged.  `none` models the `ValueError`
Python raises when the URI has more than one `@`. -/
def ofuscate_server_uri (uri : List Char) : Option (List Char) :=
  if 0 < rfind uri '@' then
    match pySplit2 uri '@' with
    | some (pre, post) =>
      let char_from := rfind pre ':'
      some (uri.take (char_from + 1).toNat
        ++ ('*' :: '*' :: '*' :: '*' :: '@' :: post))
    | none => none
  else some uri

/-- The append-accumulator loop of `_split_tasks` computes the two
order-preserving filters. -/
theorem split_tasks_foldl (l : List Task) (a b : List Task) :
    l.foldl
      (fun acc t =>
        if t.is_backend_task then (acc.1 ++ [t], acc.2) else (acc.1, acc.2 ++ [t]))
      (a, b)
      = (a ++ l.filter (fun t => t.is_backend_task),
         b ++ l.filter (fun t => !t.is_backend_task)) := by
  induction l generalizing a b with
  | nil => simp
  | cons t l ih => cases h : t.is_backend_task <;> simp [h, ih, List.filter_cons]

/-- `_split_tasks` partitions by `is_backend_task`, preserving order. -/
theorem split_tasks_eq (l : List Task) :
    split_tasks l
      = (l.filter (fun t => t.is_backend_task),
         l.filter (fun t => !t.is_backend_task)) := by
  simpa using split_tasks_foldl l [] []

/-- Shape of the events of the set-up trace. -/
theorem mem_spawnTrace (ev : Event) (e : Engine) (tasks_cls : List Task)
    (big_delay small_delay : Nat)
    (h : ev ∈ spawnTrace e tasks_cls big_delay small_delay) :
    (∃ m, ev = Event.debugLog m) ∨ (∃ m, ev = Event.infoLog m)
    ∨ ev = Event.putAutorefresh (seedAuto e)
    ∨ ev = Event.putUpdatedUuids (seedUuids e)
    ∨ (∃ l, ev = Event.spawnLane l) := by
  unfold spawnTrace at h
  rcases List.mem_append.mp h with h | h
  · rcases List.mem_append.mp h with h | h
    · exact Or.inl ⟨_, List.mem_singleton.mp h⟩
    · split at h
      · rcases List.mem_append.mp h with h | h
        · rcases List.mem_cons.mp h with h | h
          · exact Or.inr (Or.inr (Or.inl h))
          · exact Or.inr (Or.inr (Or.inr (Or.inl (List.mem_singleton.mp h))))
        · rcases List.mem_map.mp h with ⟨l, _, hl⟩
          exact Or.inr (Or.inr (Or.inr (Or.inr ⟨l, hl.symm⟩)))
      · exact absurd h (List.not_mem_nil ev)
  · split at h
    · rcases List.mem_append.mp h with h | h
      · exact Or.inr (Or.inr (Or.inr (Or.inr ⟨_, List.mem_singleton.mp h⟩)))
      · split at h
        · exact Or.inr (Or.inl ⟨_, List.mem_singleton.mp h⟩)
        · exact absurd h (List.not_mem_nil ev)
    · exact absurd h (List.not_mem_nil ev)

/-- Shape of the events of the join trace. -/
theorem mem_joinTrace (ev : Event) (lanes : List Lane)
    (h : ev ∈ joinTrace lanes) : ∃ s, ev = Event.joinLane s := by
  unfold joinTrace at h
  rcases List.mem_map.mp h with ⟨l, _, hl⟩
  exact ⟨l.label, hl.symm⟩

/-- Shape of the events of the error-channel check. -/
theorem mem_checkEvents (ev : Event) (comm : List PyError)
    (h : ev ∈ (check_queue_for_errors comm).2.1) :
    (∃ m, ev = Event.debugLog m) ∨ (∃ m, ev = Event.errorLog m) := by
  cases comm with
  | nil => simp only [check_queue_for_errors, List.mem_singleton] at h; exact Or.inl ⟨_, h⟩
  | cons exc rest =>
    simp only [check_queue_for_errors, List.mem_singleton] at h
    exact Or.inr ⟨_, h⟩

/-- Shape of the events of the queue-size checks. -/
theorem mem_drainTrace (ev : Event) (q : QState) (h : ev ∈ drainTrace q) :
    (∃ m, ev = Event.warnLog m) := by
  unfold drainTrace at h
  rcases List.mem_append.mp h with h | h <;> split at h <;>
    first
      | exact ⟨_, List.mem_singleton.mp h⟩
      | exact absurd h (List.not_mem_nil ev)

theorem setStopper_not_mem_spawnTrace (e : Engine) (tasks_cls : List Task)
    (big_delay small_delay : Nat) :
    Event.setStopper ∉ spawnTrace e tasks_cls big_delay small_delay := by
  intro h
  rcases mem_spawnTrace _ _ _ _ _ h with ⟨m, hm⟩ | ⟨m, hm⟩ | hm | hm | ⟨l, hm⟩ <;>
    simp at hm

theorem setStopper_not_mem_joinTrace (lanes : List Lane) :
    Event.setStopper ∉ joinTrace lanes := by
  intro h
  rcases mem_joinTrace _ _ h with ⟨s, hs⟩
  simp at hs

theorem setStopper_not_mem_checkEvents (comm : List PyError) :
    Event.setStopper ∉ (check_queue_for_errors comm).2.1 := by
  intro h
  rcases mem_checkEvents _ _ h with ⟨m, hm⟩ | ⟨m, hm⟩ <;> simp at hm

theorem setStopper_not_mem_drainTrace (q : QState) :
    Event.setStopper ∉ drainTrace q := by
  intro h
  rcases mem_drainTrace _ _ h with ⟨m, hm⟩
  simp at hm

theorem spawnLane_not_mem_joinTrace (l : Lane) (lanes : List Lane) :
    Event.spawnLane l ∉ joinTrace lanes := by
  intro h
  rcases mem_joinTrace _ _ h with ⟨s, hs⟩
  simp at hs

theorem spawnLane_not_mem_checkEvents (l : Lane) (comm : List PyError) :
    Event.spawnLane l ∉ (check_queue_for_errors comm).2.1 := by
  intro h
  rcases mem_checkEvents _ _ h with ⟨m, hm⟩ | ⟨m, hm⟩ <;> simp at hm

theorem spawnLane_not_mem_drainTrace (l : Lane) (q : QState) :
    Event.spawnLane l ∉ drainTrace q := by
  intro h
  rcases mem_drainTrace _ _ h with ⟨m, hm⟩
  simp at hm

theorem warnLog_not_mem_spawnTrace (m : String) (e : Engine) (tasks_cls : List Task)
    (big_delay small_delay : Nat) :
    Event.warnLog m ∉ spawnTrace e tasks_cls big_delay small_delay := by
  intro h
  rcases mem_spawnTrace _ _ _ _ _ h with ⟨n, hn⟩ | ⟨n, hn⟩ | hn | hn | ⟨l, hn⟩ <;>
    simp at hn

theorem warnLog_not_mem_joinTrace (m : String) (lanes : List Lane) :
    Event.warnLog m ∉ joinTrace lanes := by
  intro h
  rcases mem_joinTrace _ _ h with ⟨s, hs⟩
  simp at hs

theorem warnLog_not_mem_checkEvents (m : String) (comm : List PyError) :
    Event.warnLog m ∉ (check_queue_for_errors comm).2.1 := by
  intro h
  rcases mem_checkEvents _ _ h with ⟨n, hn⟩ | ⟨n, hn⟩ <;> simp at hn

theorem putAutorefresh_not_mem_joinTrace (d : List (String × Bool)) (lanes : List Lane) :
    Event.putAutorefresh d ∉ joinTrace lanes := by
  intro h
  rcases mem_joinTrace _ _ h with ⟨s, hs⟩
  simp at hs

theorem putAutorefresh_not_mem_checkEvents (d : List (String × Bool))
    (comm : List PyError) :
    Event.putAutorefresh d ∉ (check_queue_for_errors comm).2.1 := by
  intro h
  rcases mem_checkEvents _ _ h with ⟨n, hn⟩ | ⟨n, hn⟩ <;> simp at hn

theorem putAutorefresh_not_mem_drainTrace (d : List (String × Bool)) (q : QState) :
    Event.putAutorefresh d ∉ drainTrace q := by
  intro h
  rcases mem_drainTrace _ _ h with ⟨m, hm⟩
  simp at hm

theorem putUpdatedUuids_not_mem_joinTrace (d : List (String × List String))
    (lanes : List Lane) :
    Event.putUpdatedUuids d ∉ joinTrace lanes := by
  intro h
  rcases mem_joinTrace _ _ h with ⟨s, hs⟩
  simp at hs

theorem putUpdatedUuids_not_mem_checkEvents (d : List (String × List String))
    (comm : List PyError) :
    Event.putUpdatedUuids d ∉ (check_queue_for_errors comm).2.1 := by
  intro h
  rcases mem_checkEvents _ _ h with ⟨n, hn⟩ | ⟨n, hn⟩ <;> simp at hn

theorem putUpdatedUuids_not_mem_drainTrace (d : List (String × List String))
    (q : QState) :
    Event.putUpdatedUuids d ∉ drainTrace q := by
  intro h
  rcases mem_drainTrace _ _ h with ⟨m, hm⟩
  simp at hm

/-- The started threads of a call are exactly `ebtLanes`, whichever
branch the error check takes. -/
theorem execute_batch_tasks_lanes (e : Engine) (tasks_cls : List Task)
    (big_delay small_delay : Nat) (wait_for_threads : Bool)
    (q0 : QState) (interf : QState → QState) :
    (execute_batch_tasks e tasks_cls big_delay small_delay wait_for_threads q0
      interf).lanes = ebtLanes e tasks_cls big_delay small_delay := by
  cases heq : (check_queue_for_errors
      (postJoinQ e tasks_cls big_delay small_delay q0 interf).comm).2.2 <;>
    simp [execute_batch_tasks, heq]

/-- The trace of a call decomposes into the set-up part, the stop
arming, the join part and the error-check tail. -/
theorem execute_batch_tasks_trace (e : Engine) (tasks_cls : List Task)
    (big_delay small_delay : Nat) (wait_for_threads : Bool)
    (q0 : QState) (interf : QState → QState) :
    (execute_batch_tasks e tasks_cls big_delay small_delay wait_for_threads q0
      interf).trace
      = spawnTrace e tasks_cls big_delay small_delay
        ++ stopTrace wait_for_threads
        ++ joinTrace (ebtLanes e tasks_cls big_delay small_delay)
        ++ (check_queue_for_errors
            (postJoinQ e tasks_cls big_delay small_delay q0 interf).comm).2.1
        ++ (match (check_queue_for_errors
              (postJoinQ e tasks_cls big_delay small_delay q0 interf).comm).2.2 with
            | some _ => []
            | none =>
              drainTrace (postJoinQ e tasks_cls big_delay small_delay q0 interf)
                ++ [Event.debugLog "Task manager and all its tasks finished"]) := by
  cases heq : (check_queue_for_errors
      (postJoinQ e tasks_cls big_delay small_delay q0 interf).comm).2.2 <;>
    simp [execute_batch_tasks, heq]

/-- A backend-scoped task class (`TaskRawDataCollection` style). -/
def tGit : Task := ⟨"TaskRawDataCollection", true⟩

/-- A global task class (`TaskIdentitiesMerge` style). -/
def tGlob : Task := ⟨"TaskIdentitiesMerge", false⟩

/-- A one-backend engine: section `git` enabled, one project mapping
`git` to one repository. -/
def engGit : Engine :=
  ⟨["git"], fun s => s, [("proj1", [("git", ["repo1"])])], ["git"]⟩

/-- Empty process-wide queues. -/
def qEmpty : QState := ⟨[], [], []⟩

/-- A recoverable collection error as pushed by a lane. -/
def err1 : PyError := ⟨"DataCollectionError", "collection failed", "stack"⟩

/-- Interference of lanes that touch nothing. -/
def idInterf : QState → QState := fun q => q

/-- Interference of lanes that leave one error on the error channel. -/
def errInterf : QState → QState :=
  fun q => ⟨q.autorefresh, q.updatedUuids, [err1]⟩

/-- C1: after all lanes are joined, `execute_batch_tasks` drains the
error channel non-blockingly: when the post-join channel is empty no
exception is raised and the call proceeds; when it is non-empty the
first entry is logged, re-raised with its original kind, and exactly
that one entry is consumed. -/
theorem c1_error_channel (e : Engine) (tasks_cls : List Task)
    (big_delay small_delay : Nat) (wait_for_threads : Bool)
    (q0 : QState) (interf : QState → QState) :
    ((postJoinQ e tasks_cls big_delay small_delay q0 interf).comm = [] →
      (execute_batch_tasks e tasks_cls big_delay small_delay wait_for_threads q0
        interf).raised = none ∧
      Event.debugLog "No exceptions in threads"
        ∈ (execute_batch_tasks e tasks_cls big_delay small_delay wait_for_threads q0
            interf).trace) ∧
    (∀ exc rest,
      (postJoinQ e tasks_cls big_delay small_delay q0 interf).comm = exc :: rest →
      (execute_batch_tasks e tasks_cls big_delay small_delay wait_for_threads q0
        interf).raised = some exc ∧
      (execute_batch_tasks e tasks_cls big_delay small_delay wait_for_threads q0
        interf).qfinal.comm = rest ∧
      Event.errorLog exc.kind
        ∈ (execute_batch_tasks e tasks_cls big_delay small_delay wait_for_threads q0
            interf).trace) := by
  constructor
  · intro h
    simp [execute_batch_tasks, h, check_queue_for_errors]
  · intro exc rest h
    simp [execute_batch_tasks, h, check_queue_for_errors]

/-- Instance of C1 with one lane leaving one error on the channel: the
error is re-raised and the channel is left empty. -/
theorem c1_error_channel_witness :
    (execute_batch_tasks engGit [tGit, tGlob] 5 1 true qEmpty errInterf).raised
        = some err1 ∧
    (execute_batch_tasks engGit [tGit, tGlob] 5 1 true qEmpty errInterf).qfinal.comm
        = [] :=
  ⟨((c1_error_channel engGit [tGit, tGlob] 5 1 true qEmpty errInterf).2 err1 []
      (by decide)).1,
   ((c1_error_channel engGit [tGit, tGlob] 5 1 true qEmpty errInterf).2 err1 []
      (by decide)).2.1⟩

/-- C2: the tasks are partitioned by `is_backend_task` into
backend-scoped and global tasks; every backend lane (one per backend
of the computed map) carries exactly the backend-scoped tasks, the
global lane carries exactly the global tasks, no lane mixes the two
kinds, every backend of the map gets its lane whenever backend tasks
exist, and the global lane exists whenever global tasks exist. -/
theorem c2_partition_routing (e : Engine) (tasks_cls : List Task)
    (big_delay small_delay : Nat) (wait_for_threads : Bool)
    (q0 : QState) (interf : QState → QState) :
    (execute_batch_tasks e tasks_cls big_delay small_delay wait_for_threads q0
        interf).lanes
      = (if 0 < (tasks_cls.filter (fun t => t.is_backend_task)).length then
           (get_repos_by_backend e).map
             (fun p =>
               Lane.mk (tasks_cls.filter (fun t => t.is_backend_task)) p.1
                 small_delay)
         else [])
        ++ (if 0 < (tasks_cls.filter (fun t => !t.is_backend_task)).length then
              [Lane.mk (tasks_cls.filter (fun t => !t.is_backend_task))
                "Global tasks" big_delay]
            else []) ∧
    (∀ lane ∈ (execute_batch_tasks e tasks_cls big_delay small_delay
        wait_for_threads q0 interf).lanes,
      (∀ t ∈ lane.tasks, t.is_backend_task = true)
      ∨ (∀ t ∈ lane.tasks, t.is_backend_task = false)) ∧
    (∀ b repos, (b, repos) ∈ get_repos_by_backend e →
      0 < (tasks_cls.filter (fun t => t.is_backend_task)).length →
      Lane.mk (tasks_cls.filter (fun t => t.is_backend_task)) b small_delay
        ∈ (execute_batch_tasks e tasks_cls big_delay small_delay wait_for_threads
            q0 interf).lanes) ∧
    (0 < (tasks_cls.filter (fun t => !t.is_backend_task)).length →
      Lane.mk (tasks_cls.filter (fun t => !t.is_backend_task)) "Global tasks"
          big_delay
        ∈ (execute_batch_tasks e tasks_cls big_delay small_delay wait_for_threads
            q0 interf).lanes) := by
  have hlanes := execute_batch_tasks_lanes e tasks_cls big_delay small_delay
    wait_for_threads q0 interf
  have hebt : ebtLanes e tasks_cls big_delay small_delay
      = (if 0 < (tasks_cls.filter (fun t => t.is_backend_task)).length then
           (get_repos_by_backend e).map
             (fun p =>
               Lane.mk (tasks_cls.filter (fun t => t.is_backend_task)) p.1
                 small_delay)
         else [])
        ++ (if 0 < (tasks_cls.filter (fun t => !t.is_backend_task)).length then
              [Lane.mk (tasks_cls.filter (fun t => !t.is_backend_task))
                "Global tasks" big_delay]
            else []) := by
    simp [ebtLanes, backendLanes, globalLanes, split_tasks_eq]
  refine ⟨hlanes.trans hebt, ?_, ?_, ?_⟩
  · intro lane hl
    rw [hlanes, hebt] at hl
    rcases List.mem_append.mp hl with h | h
    · split at h
      · rcases List.mem_map.mp h with ⟨p, _, hp⟩
        subst hp
        exact Or.inl (fun t ht => (List.mem_filter.mp ht).2)
      · exact absurd h (List.not_mem_nil lane)
    · split at h
      · rw [List.mem_singleton.mp h]
        refine Or.inr (fun t ht => ?_)
        have := (List.mem_filter.mp ht).2
        simpa using this
      · exact absurd h (List.not_mem_nil lane)
  · intro b repos hmem hpos
    rw [hlanes, hebt]
    refine List.mem_append.mpr (Or.inl ?_)
    rw [if_pos hpos]
    exact List.mem_map.mpr ⟨(b, repos), hmem, rfl⟩
  · intro hpos
    rw [hlanes, hebt]
    refine List.mem_append.mpr (Or.inr ?_)
    rw [if_pos hpos]
    exact List.mem_singleton.mpr rfl

/-- Instance of C2: with one backend task and one global task against
the one-backend engine, a `git` lane with the backend task and the
global lane with the global task are both started. -/
theorem c2_partition_routing_witness :
    Lane.mk [tGit] "git" 1
        ∈ (execute_batch_tasks engGit [tGit, tGlob] 5 1 true qEmpty idInterf).lanes
    ∧ Lane.mk [tGlob] "Global tasks" 5
        ∈ (execute_batch_tasks engGit [tGit, tGlob] 5 1 true qEmpty idInterf).lanes :=
  ⟨(c2_partition_routing engGit [tGit, tGlob] 5 1 true qEmpty idInterf).2.2.1
      "git" ["repo1"] (by decide) (by decide),
   (c2_partition_routing engGit [tGit, tGlob] 5 1 true qEmpty idInterf).2.2.2
      (by decide)⟩

/-- C7: every key of the map returned by `_get_repos_by_backend` is a
key of the configuration, and a backend present in the accumulated
project data but not enabled in the configuration is excluded. -/
theorem c7_enabled_backends (e : Engine) :
    (∀ k v, (k, v) ∈ get_repos_by_backend e → k ∈ e.conf) ∧
    (∀ k, k ∉ e.conf → ∀ v, (k, v) ∉ get_repos_by_backend e) := by
  constructor
  · intro k v h
    exact of_decide_eq_true (List.mem_filter.mp h).2
  · intro k hk v h
    exact hk (of_decide_eq_true (List.mem_filter.mp h).2)

/-- Instance of C7 against an engine whose project data names a
backend (`github`) that the configuration does not enable: the map
keeps `git` (its key is in the configuration) and drops `github`. -/
theorem c7_enabled_backends_witness :
    "git" ∈ (Engine.mk ["git", "github"] (fun s => s)
        [("proj1", [("git", ["repo1"]), ("github", ["repo2"])])] ["git"]).conf
    ∧ ∀ v, ("github", v) ∉ get_repos_by_backend (Engine.mk ["git", "github"]
        (fun s => s) [("proj1", [("git", ["repo1"]), ("github", ["repo2"])])]
        ["git"]) :=
  ⟨(c7_enabled_backends _).1 "git" ["repo1"] (by decide),
   (c7_enabled_backends _).2 "github" (by decide)⟩

theorem setStopper_not_mem_tail (o : Option PyError) (q : QState) :
    Event.setStopper ∉ (match o with
      | some _ => ([] : List Event)
      | none => drainTrace q
          ++ [Event.debugLog "Task manager and all its tasks finished"]) := by
  cases o with
  | some exc => simp
  | none =>
    intro h
    rcases List.mem_append.mp h with h | h
    · exact setStopper_not_mem_drainTrace q h
    · simp at h

theorem spawnLane_not_mem_tail (l : Lane) (o : Option PyError) (q : QState) :
    Event.spawnLane l ∉ (match o with
      | some _ => ([] : List Event)
      | none => drainTrace q
          ++ [Event.debugLog "Task manager and all its tasks finished"]) := by
  cases o with
  | some exc => simp
  | none =>
    intro h
    rcases List.mem_append.mp h with h | h
    · exact spawnLane_not_mem_drainTrace l q h
    · simp at h

/-- C3: the stop signal of `execute_batch_tasks` starts not-set; with
`wait_for_threads` false it is never set and stays unset; with
`wait_for_threads` true it ends set and the trace sets it exactly
once, right after the one-second grace sleep and after every lane
start. -/
theorem c3_stop_signal (e : Engine) (tasks_cls : List Task)
    (big_delay small_delay : Nat) (q0 : QState) (interf : QState → QState) :
    ((execute_batch_tasks e tasks_cls big_delay small_delay false q0
        interf).stopperInitial = false ∧
     (execute_batch_tasks e tasks_cls big_delay small_delay false q0
        interf).stopperFinal = false ∧
     Event.setStopper
       ∉ (execute_batch_tasks e tasks_cls big_delay small_delay false q0
           interf).trace) ∧
    ((execute_batch_tasks e tasks_cls big_delay small_delay true q0
        interf).stopperInitial = false ∧
     (execute_batch_tasks e tasks_cls big_delay small_delay true q0
        interf).stopperFinal = true ∧
     ∃ pre post,
       (execute_batch_tasks e tasks_cls big_delay small_delay true q0
           interf).trace
         = pre ++ Event.sleep 1 :: Event.setStopper :: post ∧
       Event.setStopper ∉ pre ∧ Event.setStopper ∉ post ∧
       ∀ l, Event.spawnLane l
           ∈ (execute_batch_tasks e tasks_cls big_delay small_delay true q0
               interf).trace →
         Event.spawnLane l ∈ pre) := by
  refine ⟨⟨?_, ?_, ?_⟩, ⟨?_, ?_, ?_⟩⟩
  · cases heq : (check_queue_for_errors
        (postJoinQ e tasks_cls big_delay small_delay q0 interf).comm).2.2 <;>
      simp [execute_batch_tasks, heq]
  · cases heq : (check_queue_for_errors
        (postJoinQ e tasks_cls big_delay small_delay q0 interf).comm).2.2 <;>
      simp [execute_batch_tasks, heq]
  · rw [execute_batch_tasks_trace]
    intro h
    rcases List.mem_append.mp h with h | h
    · rcases List.mem_append.mp h with h | h
      · rcases List.mem_append.mp h with h | h
        · rcases List.mem_append.mp h with h | h
          · exact setStopper_not_mem_spawnTrace e tasks_cls big_delay small_delay h
          · simp [stopTrace] at h
        · exact setStopper_not_mem_joinTrace _ h
      · exact setStopper_not_mem_checkEvents _ h
    · exact setStopper_not_mem_tail _ _ h
  · cases heq : (check_queue_for_errors
        (postJoinQ e tasks_cls big_delay small_delay q0 interf).comm).2.2 <;>
      simp [execute_batch_tasks, heq]
  · cases heq : (check_queue_for_errors
        (postJoinQ e tasks_cls big_delay small_delay q0 interf).comm).2.2 <;>
      simp [execute_batch_tasks, heq]
  · refine ⟨spawnTrace e tasks_cls big_delay small_delay,
      joinTrace (ebtLanes e tasks_cls big_delay small_delay)
        ++ (check_queue_for_errors
            (postJoinQ e tasks_cls big_delay small_delay q0 interf).comm).2.1
        ++ (match (check_queue_for_errors
              (postJoinQ e tasks_cls big_delay small_delay q0 interf).comm).2.2 with
            | some _ => ([] : List Event)
            | none =>
              drainTrace (postJoinQ e tasks_cls big_delay small_delay q0 interf)
                ++ [Event.debugLog "Task manager and all its tasks finished"]),
      ?_, ?_, ?_, ?_⟩
    · rw [execute_batch_tasks_trace]
      simp [stopTrace]
    · exact setStopper_not_mem_spawnTrace e tasks_cls big_delay small_delay
    · intro h
      rcases List.mem_append.mp h with h | h
      · rcases List.mem_append.mp h with h | h
        · exact setStopper_not_mem_joinTrace _ h
        · exact setStopper_not_mem_checkEvents _ h
      · exact setStopper_not_mem_tail _ _ h
    · intro l h
      rw [execute_batch_tasks_trace] at h
      rcases List.mem_append.mp h with h | h
      · rcases List.mem_append.mp h with h | h
        · rcases List.mem_append.mp h with h | h
          · rcases List.mem_append.mp h with h | h
            · exact h
            · simp [stopTrace] at h
          · exact absurd h (spawnLane_not_mem_joinTrace l _)
        · exact absurd h (spawnLane_not_mem_checkEvents l _)
      · exact absurd h (spawnLane_not_mem_tail l _ _)

/-- Instance of C3 in batch mode: the stopper ends set and the trace
places the single setStopper right after the grace sleep, after the
lane spawns. -/
theorem c3_stop_signal_witness :
    (execute_batch_tasks engGit [tGit, tGlob] 5 1 false qEmpty idInterf).stopperFinal
        = false ∧
    (execute_batch_tasks engGit [tGit, tGlob] 5 1 true qEmpty idInterf).stopperFinal
        = true :=
  ⟨(c3_stop_signal engGit [tGit, tGlob] 5 1 qEmpty idInterf).1.2.1,
   (c3_stop_signal engGit [tGit, tGlob] 5 1 qEmpty idInterf).2.2.1⟩

theorem putAuto_mem_spawnTrace (e : Engine) (tasks_cls : List Task)
    (big_delay small_delay : Nat)
    (h : 0 < (split_tasks tasks_cls).1.length) :
    Event.putAutorefresh (seedAuto e) ∈ spawnTrace e tasks_cls big_delay small_delay := by
  unfold spawnTrace
  refine List.mem_append.mpr (Or.inl (List.mem_append.mpr (Or.inr ?_)))
  rw [if_pos h]
  exact List.mem_append.mpr (Or.inl (List.mem_cons_self _ _))

theorem putUuids_mem_spawnTrace (e : Engine) (tasks_cls : List Task)
    (big_delay small_delay : Nat)
    (h : 0 < (split_tasks tasks_cls).1.length) :
    Event.putUpdatedUuids (seedUuids e) ∈ spawnTrace e tasks_cls big_delay small_delay := by
  unfold spawnTrace
  refine List.mem_append.mpr (Or.inl (List.mem_append.mpr (Or.inr ?_)))
  rw [if_pos h]
  refine List.mem_append.mpr (Or.inl ?_)
  exact List.mem_cons.mpr (Or.inr (List.mem_singleton.mpr rfl))

theorem putAuto_not_mem_spawnTrace (d : List (String × Bool)) (e : Engine)
    (tasks_cls : List Task) (big_delay small_delay : Nat)
    (h : (split_tasks tasks_cls).1.length = 0) :
    Event.putAutorefresh d ∉ spawnTrace e tasks_cls big_delay small_delay := by
  intro hm
  unfold spawnTrace at hm
  rw [h] at hm
  rcases List.mem_append.mp hm with hm | hm
  · rcases List.mem_append.mp hm with hm | hm
    · simp at hm
    · simp at hm
  · split at hm
    · rcases List.mem_append.mp hm with hm | hm
      · simp at hm
      · split at hm <;> simp at hm
    · simp at hm

theorem putUuids_not_mem_spawnTrace (d : List (String × List String)) (e : Engine)
    (tasks_cls : List Task) (big_delay small_delay : Nat)
    (h : (split_tasks tasks_cls).1.length = 0) :
    Event.putUpdatedUuids d ∉ spawnTrace e tasks_cls big_delay small_delay := by
  intro hm
  unfold spawnTrace at hm
  rw [h] at hm
  rcases List.mem_append.mp hm with hm | hm
  · rcases List.mem_append.mp hm with hm | hm
    · simp at hm
    · simp at hm
  · split at hm
    · rcases List.mem_append.mp hm with hm | hm
      · simp at hm
      · split at hm <;> simp at hm
    · simp at hm

theorem putAuto_not_mem_tail (d : List (String × Bool)) (o : Option PyError)
    (q : QState) :
    Event.putAutorefresh d ∉ (match o with
      | some _ => ([] : List Event)
      | none => drainTrace q
          ++ [Event.debugLog "Task manager and all its tasks finished"]) := by
  cases o with
  | some exc => simp
  | none =>
    intro h
    rcases List.mem_append.mp h with h | h
    · exact putAutorefresh_not_mem_drainTrace d q h
    · simp at h

theorem putUuids_not_mem_tail (d : List (String × List String)) (o : Option PyError)
    (q : QState) :
    Event.putUpdatedUuids d ∉ (match o with
      | some _ => ([] : List Event)
      | none => drainTrace q
          ++ [Event.debugLog "Task manager and all its tasks finished"]) := by
  cases o with
  | some exc => simp
  | none =>
    intro h
    rcases List.mem_append.mp h with h | h
    · exact putUpdatedUuids_not_mem_drainTrace d q h
    · simp at h

/-- C4: when at least one backend-scoped task exists, the two registry
dicts put on the shared queues map exactly the backends of the
computed backend-repository map to `false` and to `[]`, the queues
receive exactly those fresh dicts, and one backend lane is started per
backend of the map; with no backend-scoped task nothing is put on the
registry queues and no backend lane is started. -/
theorem c4_registry_seeding (e : Engine) (tasks_cls : List Task)
    (big_delay small_delay : Nat) (wait_for_threads : Bool)
    (q0 : QState) (interf : QState → QState) :
    (0 < (tasks_cls.filter (fun t => t.is_backend_task)).length →
      Event.putAutorefresh (seedAuto e)
        ∈ (execute_batch_tasks e tasks_cls big_delay small_delay wait_for_threads
            q0 interf).trace ∧
      Event.putUpdatedUuids (seedUuids e)
        ∈ (execute_batch_tasks e tasks_cls big_delay small_delay wait_for_threads
            q0 interf).trace ∧
      seedAuto e = (get_repos_by_backend e).map (fun p => (p.1, false)) ∧
      seedUuids e = (get_repos_by_backend e).map (fun p => (p.1, ([] : List String))) ∧
      preJoinQ e tasks_cls q0
        = { autorefresh := q0.autorefresh ++ [seedAuto e],
            updatedUuids := q0.updatedUuids ++ [seedUuids e],
            comm := q0.comm } ∧
      backendLanes e tasks_cls small_delay
        = (get_repos_by_backend e).map
            (fun p => Lane.mk (tasks_cls.filter (fun t => t.is_backend_task)) p.1
              small_delay)) ∧
    ((tasks_cls.filter (fun t => t.is_backend_task)).length = 0 →
      (∀ d, Event.putAutorefresh d
        ∉ (execute_batch_tasks e tasks_cls big_delay small_delay wait_for_threads
            q0 interf).trace) ∧
      (∀ d, Event.putUpdatedUuids d
        ∉ (execute_batch_tasks e tasks_cls big_delay small_delay wait_for_threads
            q0 interf).trace) ∧
      preJoinQ e tasks_cls q0 = q0 ∧
      backendLanes e tasks_cls small_delay = []) := by
  have hs := split_tasks_eq tasks_cls
  constructor
  · intro hpos
    have hpos1 : 0 < (split_tasks tasks_cls).1.length := by rw [hs]; exact hpos
    refine ⟨?_, ?_, rfl, rfl, ?_, ?_⟩
    · rw [execute_batch_tasks_trace]
      refine List.mem_append.mpr (Or.inl (List.mem_append.mpr (Or.inl
        (List.mem_append.mpr (Or.inl (List.mem_append.mpr (Or.inl ?_)))))))
      exact putAuto_mem_spawnTrace e tasks_cls big_delay small_delay hpos1
    · rw [execute_batch_tasks_trace]
      refine List.mem_append.mpr (Or.inl (List.mem_append.mpr (Or.inl
        (List.mem_append.mpr (Or.inl (List.mem_append.mpr (Or.inl ?_)))))))
      exact putUuids_mem_spawnTrace e tasks_cls big_delay small_delay hpos1
    · simp [preJoinQ, hpos1]
    · unfold backendLanes
      rw [if_pos hpos1, hs]
  · intro hzero
    have hzero1 : (split_tasks tasks_cls).1.length = 0 := by rw [hs]; exact hzero
    refine ⟨?_, ?_, ?_, ?_⟩
    · intro d hm
      rw [execute_batch_tasks_trace] at hm
      rcases List.mem_append.mp hm with hm | hm
      · rcases List.mem_append.mp hm with hm | hm
        · rcases List.mem_append.mp hm with hm | hm
          · rcases List.mem_append.mp hm with hm | hm
            · exact putAuto_not_mem_spawnTrace d e tasks_cls big_delay small_delay
                hzero1 hm
            · simp [stopTrace] at hm
          · exact putAutorefresh_not_mem_joinTrace d _ hm
        · exact putAutorefresh_not_mem_checkEvents d _ hm
      · exact putAuto_not_mem_tail d _ _ hm
    · intro d hm
      rw [execute_batch_tasks_trace] at hm
      rcases List.mem_append.mp hm with hm | hm
      · rcases List.mem_append.mp hm with hm | hm
        · rcases List.mem_append.mp hm with hm | hm
          · rcases List.mem_append.mp hm with hm | hm
            · exact putUuids_not_mem_spawnTrace d e tasks_cls big_delay small_delay
                hzero1 hm
            · simp [stopTrace] at hm
          · exact putUpdatedUuids_not_mem_joinTrace d _ hm
        · exact putUpdatedUuids_not_mem_checkEvents d _ hm
      · exact putUuids_not_mem_tail d _ _ hm
    · simp [preJoinQ, hzero1]
    · simp [backendLanes, hzero1]

/-- Instance of C4 with one backend task: the `git`-keyed seed dicts
are put and the `git` lane is started. -/
theorem c4_registry_seeding_witness :
    Event.putAutorefresh [("git", false)]
      ∈ (execute_batch_tasks engGit [tGit, tGlob] 5 1 true qEmpty idInterf).trace :=
  have h := ((c4_registry_seeding engGit [tGit, tGlob] 5 1 true qEmpty idInterf).1
    (by decide)).1
  by
    have hseed : seedAuto engGit = [("git", false)] := by decide
    rw [hseed] at h
    exact h

theorem warnAuto_mem_drainTrace (q : QState) :
    Event.warnLog "AUTOREFRESH QUEUE final size" ∈ drainTrace q
      ↔ q.autorefresh.length ≠ 1 := by
  unfold drainTrace
  constructor
  · intro h
    rcases List.mem_append.mp h with h | h
    · split at h
      · assumption
      · exact absurd h (List.not_mem_nil _)
    · split at h
      · exact absurd (List.mem_singleton.mp h) (by decide)
      · exact absurd h (List.not_mem_nil _)
  · intro h
    refine List.mem_append.mpr (Or.inl ?_)
    rw [if_pos h]
    exact List.mem_singleton.mpr rfl

theorem warnUuids_mem_drainTrace (q : QState) :
    Event.warnLog "UPDATED UUIDS QUEUE final size" ∈ drainTrace q
      ↔ q.updatedUuids.length ≠ 1 := by
  unfold drainTrace
  constructor
  · intro h
    rcases List.mem_append.mp h with h | h
    · split at h
      · exact absurd (List.mem_singleton.mp h) (by decide)
      · exact absurd h (List.not_mem_nil _)
    · split at h
      · assumption
      · exact absurd h (List.not_mem_nil _)
  · intro h
    refine List.mem_append.mpr (Or.inr ?_)
    rw [if_pos h]
    exact List.mem_singleton.mpr rfl

/-- With an empty post-join error channel the call ends in the normal
branch: trace decomposition specialised to that case. -/
theorem execute_batch_tasks_trace_ok (e : Engine) (tasks_cls : List Task)
    (big_delay small_delay : Nat) (wait_for_threads : Bool)
    (q0 : QState) (interf : QState → QState)
    (h : (postJoinQ e tasks_cls big_delay small_delay q0 interf).comm = []) :
    (execute_batch_tasks e tasks_cls big_delay small_delay wait_for_threads q0
      interf).trace
      = spawnTrace e tasks_cls big_delay small_delay
        ++ stopTrace wait_for_threads
        ++ joinTrace (ebtLanes e tasks_cls big_delay small_delay)
        ++ [Event.debugLog "No exceptions in threads"]
        ++ drainTrace (postJoinQ e tasks_cls big_delay small_delay q0 interf)
        ++ [Event.debugLog "Task manager and all its tasks finished"] := by
  simp [execute_batch_tasks, h, check_queue_for_errors]

/-- C6: whenever `execute_batch_tasks` returns without re-raising an
error, it has checked each registry queue for holding exactly one
entry, warning exactly when a size differs from one, and has drained
both registry queues (and the error channel is empty too): every
normal return leaves all shared queues empty. -/
theorem c6_registry_drain (e : Engine) (tasks_cls : List Task)
    (big_delay small_delay : Nat) (wait_for_threads : Bool)
    (q0 : QState) (interf : QState → QState) :
    (execute_batch_tasks e tasks_cls big_delay small_delay wait_for_threads q0
        interf).raised = none →
      (execute_batch_tasks e tasks_cls big_delay small_delay wait_for_threads q0
        interf).qfinal.autorefresh = [] ∧
      (execute_batch_tasks e tasks_cls big_delay small_delay wait_for_threads q0
        interf).qfinal.updatedUuids = [] ∧
      (execute_batch_tasks e tasks_cls big_delay small_delay wait_for_threads q0
        interf).qfinal.comm = [] ∧
      ((Event.warnLog "AUTOREFRESH QUEUE final size"
          ∈ (execute_batch_tasks e tasks_cls big_delay small_delay wait_for_threads
              q0 interf).trace)
        ↔ (postJoinQ e tasks_cls big_delay small_delay q0 interf).autorefresh.length
            ≠ 1) ∧
      ((Event.warnLog "UPDATED UUIDS QUEUE final size"
          ∈ (execute_batch_tasks e tasks_cls big_delay small_delay wait_for_threads
              q0 interf).trace)
        ↔ (postJoinQ e tasks_cls big_delay small_delay q0
            interf).updatedUuids.length ≠ 1) := by
  intro hr
  cases hq : (postJoinQ e tasks_cls big_delay small_delay q0 interf).comm with
  | cons exc rest =>
    exfalso
    simp [execute_batch_tasks, hq, check_queue_for_errors] at hr
  | nil =>
    refine ⟨?_, ?_, ?_, ?_, ?_⟩
    · simp [execute_batch_tasks, hq, check_queue_for_errors]
    · simp [execute_batch_tasks, hq, check_queue_for_errors]
    · simp [execute_batch_tasks, hq, check_queue_for_errors]
    · rw [execute_batch_tasks_trace_ok e tasks_cls big_delay small_delay
        wait_for_threads q0 interf hq]
      constructor
      · intro h
        rcases List.mem_append.mp h with h | h
        · rcases List.mem_append.mp h with h | h
          · rcases List.mem_append.mp h with h | h
            · rcases List.mem_append.mp h with h | h
              · rcases List.mem_append.mp h with h | h
                · exact absurd h (warnLog_not_mem_spawnTrace _ e tasks_cls
                    big_delay small_delay)
                · simp [stopTrace] at h
              · exact absurd h (warnLog_not_mem_joinTrace _ _)
            · simp at h
          · exact (warnAuto_mem_drainTrace _).mp h
        · simp at h
      · intro h
        refine List.mem_append.mpr (Or.inl (List.mem_append.mpr (Or.inr ?_)))
        exact (warnAuto_mem_drainTrace _).mpr h
    · rw [execute_batch_tasks_trace_ok e tasks_cls big_delay small_delay
        wait_for_threads q0 interf hq]
      constructor
      · intro h
        rcases List.mem_append.mp h with h | h
        · rcases List.mem_append.mp h with h | h
          · rcases List.mem_append.mp h with h | h
            · rcases List.mem_append.mp h with h | h
              · rcases List.mem_append.mp h with h | h
                · exact absurd h (warnLog_not_mem_spawnTrace _ e tasks_cls
                    big_delay small_delay)
                · simp [stopTrace] at h
              · exact absurd h (warnLog_not_mem_joinTrace _ _)
            · simp at h
          · exact (warnUuids_mem_drainTrace _).mp h
        · simp at h
      · intro h
        refine List.mem_append.mpr (Or.inl (List.mem_append.mpr (Or.inr ?_)))
        exact (warnUuids_mem_drainTrace _).mpr h

/-- Instance of C6: a normal batch leaves every shared queue empty and,
with the registry queues holding their single seed entry, warns about
neither size. -/
theorem c6_registry_drain_witness :
    (execute_batch_tasks engGit [tGit, tGlob] 5 1 true qEmpty idInterf).qfinal
        = QState.mk [] [] [] ∧
    ¬ (Event.warnLog "AUTOREFRESH QUEUE final size"
        ∈ (execute_batch_tasks engGit [tGit, tGlob] 5 1 true qEmpty idInterf).trace) :=
  have h := c6_registry_drain engGit [tGit, tGlob] 5 1 true qEmpty idInterf
    (by decide)
  ⟨by
      have h1 := h.1
      have h2 := h.2.1
      have h3 := h.2.2.1
      cases hq : (execute_batch_tasks engGit [tGit, tGlob] 5 1 true qEmpty
        idInterf).qfinal with
      | mk a u c =>
        rw [hq] at h1 h2 h3
        simp only at h1 h2 h3
        rw [h1, h2, h3],
   fun hw => (by decide : ¬ ((postJoinQ engGit [tGit, tGlob] 5 1 qEmpty
      idInterf).autorefresh.length ≠ 1)) (h.2.2.2.1.mp hw)⟩

/-- C5: in the main loop of `start`, a recoverable collection or
enrichment error raised by a batch is caught, logged together with its
traceback, and the loop is re-entered; an error of any other kind
propagates out; and in single-pass mode (`general.update` false) a
normal batch is executed once, with waiting enabled, and the loop
exits. -/
theorem c5_start_loop (c : StartConf) (allTasks : List Task) (err : PyError)
    (script : List Outcome) (h : allTasks ≠ []) :
    (startLoop c allTasks (Outcome.collection err :: script)
      = (callEvent c :: SEvent.logError err.message :: SEvent.logTraceback
          :: (startLoop c allTasks script).1,
         (startLoop c allTasks script).2)) ∧
    (startLoop c allTasks (Outcome.enrichment err :: script)
      = (callEvent c :: SEvent.logError err.message :: SEvent.logTraceback
          :: (startLoop c allTasks script).1,
         (startLoop c allTasks script).2)) ∧
    (startLoop c allTasks (Outcome.fatal err :: script)
      = ([callEvent c], LoopEnd.raised err)) ∧
    (c.update = false →
      startLoop c allTasks (Outcome.ok :: script)
        = ([SEvent.callBatch c.sleep_for c.min_update_delay true],
           LoopEnd.finished)) := by
  cases allTasks with
  | nil => exact absurd rfl h
  | cons t ts =>
    refine ⟨?_, ?_, ?_, ?_⟩
    · simp [startLoop]
    · simp [startLoop]
    · simp [startLoop]
    · intro hupd
      simp [startLoop, callEvent, hupd]

/-- Instance of C5 in single-pass mode with a normal batch: exactly
one batch call, with waiting enabled, and the loop finishes. -/
theorem c5_start_loop_witness :
    startLoop (StartConf.mk false 5 1) [tGit] [Outcome.ok]
      = ([SEvent.callBatch 5 1 true], LoopEnd.finished) :=
  (c5_start_loop (StartConf.mk false 5 1) [tGit] err1 [] (by decide)).2.2.2 rfl

theorem sleep_not_mem_spawnTrace (n : Nat) (e : Engine) (tasks_cls : List Task)
    (big_delay small_delay : Nat) :
    Event.sleep n ∉ spawnTrace e tasks_cls big_delay small_delay := by
  intro h
  rcases mem_spawnTrace _ _ _ _ _ h with ⟨m, hm⟩ | ⟨m, hm⟩ | hm | hm | ⟨l, hm⟩ <;>
    simp at hm

theorem sleep_not_mem_joinTrace (n : Nat) (lanes : List Lane) :
    Event.sleep n ∉ joinTrace lanes := by
  intro h
  rcases mem_joinTrace _ _ h with ⟨s, hs⟩
  simp at hs

theorem sleep_not_mem_checkEvents (n : Nat) (comm : List PyError) :
    Event.sleep n ∉ (check_queue_for_errors comm).2.1 := by
  intro h
  rcases mem_checkEvents _ _ h with ⟨m, hm⟩ | ⟨m, hm⟩ <;> simp at hm

theorem sleep_not_mem_tail (n : Nat) (o : Option PyError) (q : QState) :
    Event.sleep n ∉ (match o with
      | some _ => ([] : List Event)
      | none => drainTrace q
          ++ [Event.debugLog "Task manager and all its tasks finished"]) := by
  cases o with
  | some exc => simp
  | none =>
    intro h
    rcases List.mem_append.mp h with h | h
    · rcases mem_drainTrace _ _ h with ⟨m, hm⟩
      simp at hm
    · simp at h

/-- Counterexample to C8: with an empty task list and batch mode
(`wait_for_threads` true, the mode the claim describes),
`execute_batch_tasks` spawns no lane but does not return immediately:
it still executes the one-second grace sleep (and arms the stop
signal) before returning. -/
theorem c8_counterexample :
    (execute_batch_tasks engGit [] 0 0 true qEmpty idInterf).lanes = [] ∧
    Event.sleep 1 ∈ (execute_batch_tasks engGit [] 0 0 true qEmpty idInterf).trace
    := by decide

/-- C8 amended: for an empty task list `execute_batch_tasks` spawns no
lane and seeds no registry, but in batch mode it still sleeps the
grace period (the sleep happens exactly when `wait_for_threads` is
true); the empty-task warning with an immediate exit is implemented in
`start`, whose loop logs the warning and breaks without any batch
call. -/
theorem c8_empty_no_op (e : Engine) (big_delay small_delay : Nat)
    (wait_for_threads : Bool) (q0 : QState) (interf : QState → QState)
    (c : StartConf) :
    (execute_batch_tasks e [] big_delay small_delay wait_for_threads q0
        interf).lanes = [] ∧
    (∀ d, Event.putAutorefresh d
      ∉ (execute_batch_tasks e [] big_delay small_delay wait_for_threads q0
          interf).trace) ∧
    ((Event.sleep 1 ∈ (execute_batch_tasks e [] big_delay small_delay
        wait_for_threads q0 interf).trace) ↔ wait_for_threads = true) ∧
    (∀ script, startLoop c [] script = ([SEvent.warnNoTasks], LoopEnd.finished)) := by
  have hzero1 : (split_tasks ([] : List Task)).1.length = 0 := rfl
  refine ⟨?_, ?_, ?_, ?_⟩
  · rw [execute_batch_tasks_lanes]
    simp [ebtLanes, backendLanes, globalLanes, split_tasks]
  · intro d hm
    rw [execute_batch_tasks_trace] at hm
    rcases List.mem_append.mp hm with hm | hm
    · rcases List.mem_append.mp hm with hm | hm
      · rcases List.mem_append.mp hm with hm | hm
        · rcases List.mem_append.mp hm with hm | hm
          · exact putAuto_not_mem_spawnTrace d e [] big_delay small_delay
              hzero1 hm
          · simp [stopTrace] at hm
        · exact putAutorefresh_not_mem_joinTrace d _ hm
      · exact putAutorefresh_not_mem_checkEvents d _ hm
    · exact putAuto_not_mem_tail d _ _ hm
  · cases hw : wait_for_threads with
    | true =>
      simp only [iff_true]
      rw [execute_batch_tasks_trace]
      refine List.mem_append.mpr (Or.inl (List.mem_append.mpr (Or.inl
        (List.mem_append.mpr (Or.inl (List.mem_append.mpr (Or.inr ?_)))))))
      simp [stopTrace]
    | false =>
      simp only [Bool.false_eq_true, iff_false]
      intro hm
      rw [execute_batch_tasks_trace] at hm
      rcases List.mem_append.mp hm with hm | hm
      · rcases List.mem_append.mp hm with hm | hm
        · rcases List.mem_append.mp hm with hm | hm
          · rcases List.mem_append.mp hm with hm | hm
            · exact sleep_not_mem_spawnTrace 1 e [] big_delay small_delay hm
            · simp [stopTrace] at hm
          · exact sleep_not_mem_joinTrace 1 _ hm
        · exact sleep_not_mem_checkEvents 1 _ hm
      · exact sleep_not_mem_tail 1 _ _ hm
  · intro script
    cases script <;> simp [startLoop]

/-- Instance of the amended C8: an empty batch spawns no lane yet
sleeps the grace period, while the loop of `start` with no tasks just
warns and finishes. -/
theorem c8_empty_no_op_witness :
    Event.sleep 1 ∈ (execute_batch_tasks engGit [] 0 0 false qEmpty idInterf).trace
      ∨ startLoop (StartConf.mk false 5 1) [] [Outcome.ok]
          = ([SEvent.warnNoTasks], LoopEnd.finished) :=
  Or.inr ((c8_empty_no_op engGit 0 0 false qEmpty idInterf
    (StartConf.mk false 5 1)).2.2.2 [Outcome.ok])

/-- An engine whose configuration enables section `git` while the
project data maps no backend at all. -/
def engNoGit : Engine := ⟨["git"], fun s => s, [("proj1", [])], ["git"]⟩

/-- Counterexample to C9: backend `git` is enabled in the
configuration and a backend-scoped task exists, yet no lane at all is
started, because `git` does not appear in the project data and so is
absent from the computed backend-repository map. -/
theorem c9_counterexample :
    "git" ∈ engNoGit.conf ∧ tGit.is_backend_task = true ∧
    (execute_batch_tasks engNoGit [tGit] 0 1 true qEmpty idInterf).lanes = []
    := by decide

/-- C9 amended: lane creation covers exactly the backends of the map
computed by `_get_repos_by_backend`: when backend tasks exist every
backend of the map gets a lane, including one whose mapped repository
list is empty; a backend absent from the map — for instance enabled in
configuration but missing from the project data — gets no backend
lane. -/
theorem c9_lanes_from_map (e : Engine) (tasks_cls : List Task)
    (big_delay small_delay : Nat) (wait_for_threads : Bool) (q0 : QState)
    (interf : QState → QState) :
    (0 < (tasks_cls.filter (fun t => t.is_backend_task)).length →
      backendLanes e tasks_cls small_delay
        = (get_repos_by_backend e).map
            (fun p => Lane.mk (tasks_cls.filter (fun t => t.is_backend_task)) p.1
              small_delay) ∧
      ∀ b, (b, ([] : List String)) ∈ get_repos_by_backend e →
        Lane.mk (tasks_cls.filter (fun t => t.is_backend_task)) b small_delay
          ∈ (execute_batch_tasks e tasks_cls big_delay small_delay
              wait_for_threads q0 interf).lanes) ∧
    (∀ b, (∀ v, (b, v) ∉ get_repos_by_backend e) →
      ∀ lane ∈ backendLanes e tasks_cls small_delay, lane.label ≠ b) := by
  have hs := split_tasks_eq tasks_cls
  constructor
  · intro hpos
    have hpos1 : 0 < (split_tasks tasks_cls).1.length := by rw [hs]; exact hpos
    have heq : backendLanes e tasks_cls small_delay
        = (get_repos_by_backend e).map
            (fun p => Lane.mk (tasks_cls.filter (fun t => t.is_backend_task)) p.1
              small_delay) := by
      unfold backendLanes
      rw [if_pos hpos1, hs]
    refine ⟨heq, ?_⟩
    intro b hb
    rw [execute_batch_tasks_lanes]
    unfold ebtLanes
    refine List.mem_append.mpr (Or.inl ?_)
    rw [heq]
    exact List.mem_map.mpr ⟨(b, []), hb, rfl⟩
  · intro b hb lane hlane
    unfold backendLanes at hlane
    split at hlane
    · rcases List.mem_map.mp hlane with ⟨p, hp, hpl⟩
      subst hpl
      intro hlabel
      exact hb p.2 (by
        have : p = (b, p.2) := by
          cases p
          simp only at hlabel
          rw [hlabel]
        rw [this] at hp
        exact hp)
    · exact absurd hlane (List.not_mem_nil lane)

/-- An engine whose project data maps backend `git` to an empty
repository list. -/
def engEmptyRepos : Engine := ⟨["git"], fun s => s, [("proj1", [("git", [])])], ["git"]⟩

/-- Instance of the amended C9: a configuration-enabled backend whose
project entry carries zero repositories still gets its lane. -/
theorem c9_lanes_from_map_witness :
    Lane.mk [tGit] "git" 1
      ∈ (execute_batch_tasks engEmptyRepos [tGit] 0 1 true qEmpty idInterf).lanes :=
  ((c9_lanes_from_map engEmptyRepos [tGit] 0 1 true qEmpty idInterf).1
    (by decide)).2 "git" (by decide)

theorem rfind_eq_neg_one (s : List Char) (c : Char) (h : c ∉ s) :
    rfind s c = -1 := by
  induction s with
  | nil => rfl
  | cons x xs ih =>
    simp only [List.mem_cons, not_or] at h
    have hx : ¬ x = c := fun hh => h.1 hh.symm
    simp [rfind, ih h.2, hx]

theorem rfind_append_cons (xs ys : List Char) (c : Char) (h : c ∉ ys) :
    rfind (xs ++ c :: ys) c = (xs.length : Int) := by
  induction xs with
  | nil => simp [rfind, rfind_eq_neg_one ys c h]
  | cons x xs ih =>
    have hstep : rfind ((x :: xs) ++ c :: ys) c
        = if 0 ≤ rfind (xs ++ c :: ys) c then rfind (xs ++ c :: ys) c + 1
          else if x = c then 0 else -1 := rfl
    rw [hstep, ih, if_pos (Int.natCast_nonneg _), List.length_cons]
    push_cast
    ring

theorem count_append_cons (xs ys : List Char) (c : Char) (hx : c ∉ xs)
    (hy : c ∉ ys) : (xs ++ c :: ys).count c = 1 := by
  simp [List.count_append, List.count_eq_zero.mpr hx, List.count_eq_zero.mpr hy]

theorem takeWhile_append_cons (xs ys : List Char) (c : Char) (h : c ∉ xs) :
    (xs ++ c :: ys).takeWhile (fun x => x ≠ c) = xs := by
  induction xs with
  | nil => simp [List.takeWhile_cons]
  | cons x xs ih =>
    simp only [List.mem_cons, not_or] at h
    have hx : x ≠ c := fun hh => h.1 hh.symm
    have hd : (fun x => decide (x ≠ c)) x = true := by simp [hx]
    rw [List.cons_append, List.takeWhile_cons, if_pos hd, ih h.2]

theorem dropWhile_append_cons (xs ys : List Char) (c : Char) (h : c ∉ xs) :
    (xs ++ c :: ys).dropWhile (fun x => x ≠ c) = c :: ys := by
  induction xs with
  | nil => simp [List.dropWhile_cons]
  | cons x xs ih =>
    simp only [List.mem_cons, not_or] at h
    have hx : x ≠ c := fun hh => h.1 hh.symm
    have hd : (fun x => decide (x ≠ c)) x = true := by simp [hx]
    rw [List.cons_append, List.dropWhile_cons, if_pos hd, ih h.2]

theorem take_append_cons (xs ys : List Char) (y : Char) :
    (xs ++ y :: ys).take (xs.length + 1) = xs ++ [y] := by
  induction xs with
  | nil => simp
  | cons x xs ih => simp [ih]

/-- Evaluation of the obfuscation on a well-formed credentialled URI:
whatever colon-free, at-free password sits between the last colon of
the prefix and the separator, the result replaces it with the four
asterisks. -/
theorem ofuscate_eval (a p b : List Char) (ha : ('@' : Char) ∉ a)
    (hb : ('@' : Char) ∉ b) (hpa : ('@' : Char) ∉ p) (hpc : (':' : Char) ∉ p) :
    ofuscate_server_uri (a ++ ':' :: (p ++ '@' :: b))
      = some (a ++ ':' :: '*' :: '*' :: '*' :: '*' :: '@' :: b) := by
  have hpre : ('@' : Char) ∉ a ++ ':' :: p := by
    simp only [List.mem_append, List.mem_cons, not_or]
    exact ⟨ha, by decide, hpa⟩
  have hassoc : a ++ ':' :: (p ++ '@' :: b) = (a ++ ':' :: p) ++ '@' :: b := by
    simp
  have hr : rfind (a ++ ':' :: (p ++ '@' :: b)) '@'
      = (((a ++ ':' :: p).length : Nat) : Int) := by
    rw [hassoc]; exact rfind_append_cons _ _ _ hb
  have hlen : (0 : Int) < (((a ++ ':' :: p).length : Nat) : Int) := by
    have h1 : 0 < (a ++ ':' :: p).length := by
      rw [List.length_append, List.length_cons]; omega
    exact_mod_cast h1
  have hcount : (a ++ ':' :: (p ++ '@' :: b)).count '@' = 1 := by
    rw [hassoc]; exact count_append_cons _ _ _ hpre hb
  have htake : (a ++ ':' :: (p ++ '@' :: b)).takeWhile (fun x => x ≠ '@')
      = a ++ ':' :: p := by
    rw [hassoc]; exact takeWhile_append_cons _ _ _ hpre
  have hdrop : ((a ++ ':' :: (p ++ '@' :: b)).dropWhile (fun x => x ≠ '@')).tail
      = b := by
    rw [hassoc, dropWhile_append_cons _ _ _ hpre]
    rfl
  have hr2 : rfind (a ++ ':' :: p) ':' = ((a.length : Nat) : Int) :=
    rfind_append_cons a p ':' hpc
  unfold ofuscate_server_uri pySplit2
  rw [hr, if_pos hlen, hcount, if_pos rfl, htake, hdrop]
  show some ((a ++ ':' :: (p ++ '@' :: b)).take
      ((rfind (a ++ ':' :: p) ':' + 1).toNat)
      ++ '*' :: '*' :: '*' :: '*' :: '@' :: b) = _
  rw [hr2]
  have htonat : (((a.length : Nat) : Int) + 1).toNat = a.length + 1 := by
    omega
  rw [htonat]
  have htk : (a ++ ':' :: (p ++ '@' :: b)).take (a.length + 1) = a ++ [':'] :=
    take_append_cons a (p ++ '@' :: b) ':'
  rw [htk]
  simp

/-- A URI without an at sign is returned unchanged. -/
theorem ofuscate_no_at (s : List Char) (h : ('@' : Char) ∉ s) :
    ofuscate_server_uri s = some s := by
  unfold ofuscate_server_uri
  rw [rfind_eq_neg_one s '@' h]
  norm_num

/-- C10: the obfuscation applied before logging an Elasticsearch
connection failure is password-independent: two URIs of the form
scheme-user prefix, colon, password, at sign, host that differ only in
the (colon-free, at-free) password obfuscate to the same string — the
password is replaced by four asterisks — and a URI containing no at
sign is returned unchanged. -/
theorem c10_password_masking (a p1 p2 b : List Char)
    (ha : ('@' : Char) ∉ a) (hb : ('@' : Char) ∉ b)
    (hp1a : ('@' : Char) ∉ p1) (hp1c : (':' : Char) ∉ p1)
    (hp2a : ('@' : Char) ∉ p2) (hp2c : (':' : Char) ∉ p2) :
    ofuscate_server_uri (a ++ ':' :: (p1 ++ '@' :: b))
      = ofuscate_server_uri (a ++ ':' :: (p2 ++ '@' :: b)) ∧
    ofuscate_server_uri (a ++ ':' :: (p1 ++ '@' :: b))
      = some (a ++ ':' :: '*' :: '*' :: '*' :: '*' :: '@' :: b) ∧
    (∀ s, ('@' : Char) ∉ s → ofuscate_server_uri s = some s) :=
  ⟨(ofuscate_eval a p1 b ha hb hp1a hp1c).trans
      (ofuscate_eval a p2 b ha hb hp2a hp2c).symm,
   ofuscate_eval a p1 b ha hb hp1a hp1c,
   fun s hs => ofuscate_no_at s hs⟩

/-- Instance of C10: two concrete URIs differing only in the password
obfuscate identically. -/
theorem c10_password_masking_witness :
    ofuscate_server_uri (String.toList "http://user"
        ++ ':' :: (String.toList "secret" ++ '@' :: String.toList "host:9200"))
      = ofuscate_server_uri (String.toList "http://user"
        ++ ':' :: (String.toList "hunter2" ++ '@' :: String.toList "host:9200")) :=
  (c10_password_masking (String.toList "http://user") (String.toList "secret")
    (String.toList "hunter2") (String.toList "host:9200")
    (by decide) (by decide) (by decide) (by decide) (by decide) (by decide)).1

end Mordred
